import Mathlib

/-!
Verification of the wnba-prop-cheater projection and role pipeline.

Shallow embedding of the pure computational core of `src/props_model.py`,
`src/run_wnba_daily.py`, `src/smooth.py`, `src/label.py` and
`src/features.py`.  Machine floats are modelled as rationals (`ℚ`) except
for the entropy-based stability score, which uses `ℝ` because it involves
the natural logarithm.  A float `NaN` produced by missing/unparseable data
is modelled as `Option.none`; a Python exception is modelled with `Except`.
-/

namespace PropsModel

/-- An American-odds cell of the `lines` tab as consumed by `project_row`
(props_model.py lines 158 and 224-225): `missing` models `None` or `""`
(the code then uses the breakeven probability 0.5), `bad` models a present
cell on which `float()` raises (the exception escapes to the batch loop),
and `val q` a cell that parses to the number `q`. -/
inductive OddsVal where
  | missing : OddsVal
  | bad : OddsVal
  | val : ℚ → OddsVal
deriving DecidableEq

/-- props_model.py lines 224-225: implied probability of one side.
`100/(o+100)` for positive odds, `(-o)/((-o)+100)` otherwise; missing
odds default to `0.5`; an unparseable cell raises (`float()` fails). -/
def impliedOrHalf : OddsVal → Except Unit ℚ
  | OddsVal.missing => Except.ok (1/2)
  | OddsVal.bad => Except.error ()
  | OddsVal.val o => Except.ok (if 0 < o then 100 / (o + 100) else (-o) / ((-o) + 100))

/-- The seven opponent-allowance columns read by `project_row`
(props_model.py line 165). -/
inductive OppCol where
  | fg3a | fg3pct | fta | reb | ast | tov | pts
deriving DecidableEq

/-- One row of the optional `players_baseline` tab as stored in the `BASE`
lookup (props_model.py lines 105-111); a `none` field models an absent or
NaN cell (the code then falls back to a league-typical constant,
lines 169-176).  The `position` column is read but never used afterwards
and is omitted. -/
structure Baseline where
  min_mean : Option ℚ := none
  usage_pct : Option ℚ := none
  ar3 : Option ℚ := none
  ft_rate : Option ℚ := none
  reb_rate : Option ℚ := none
  ast_rate : Option ℚ := none
  stl_rate : Option ℚ := none
  tov_rate : Option ℚ := none

/-- The `BASE.get(player, {})` default: a row with every field absent. -/
def Baseline.empty : Baseline := {}

/-- The parametric model chosen by props_model.py lines 205-216.
`nb r p` stands for `1 - nbinom.cdf(line, r, p)`, `pois lam` for
`1 - poisson.cdf(line, lam)`, and `normal m v` for
`1 - norm.cdf(line + 1e-9, loc=m, scale=max(1e-6, sqrt v))`; the
constructor carries the mean and the VARIANCE because the square root is
taken only inside the (external) scipy call. -/
inductive Dist where
  | nb : ℚ → ℚ → Dist
  | pois : ℚ → Dist
  | normal : ℚ → ℚ → Dist
deriving DecidableEq

/-- Holds exactly on the Poisson branch of the three-way choice. -/
def Dist.isPois : Dist → Bool
  | Dist.pois _ => true
  | _ => false

/-- props_model.py lines 205-216: the three-way distribution branch.
Negative binomial when the variance exceeds the mean by more than 5%
(with the moment-matching `p = mean/var`, `r = mean*p/(1-p)` guarded by
`0 < p < 1`), else Poisson when the mean is at most 6 AND the prop string
is one of the six literals of line 212, else Normal. -/
def distFor (prop : String) (mean var : ℚ) : Dist :=
  if mean * (21/20) < var then
    Dist.nb (if 0 < mean / var ∧ mean / var < 1
             then mean * (mean / var) / (1 - mean / var) else mean) (mean / var)
  else if mean ≤ 6 ∧ prop ∈ ["3pm", "3ptm", "steals", "stl", "turnovers", "tov"] then
    Dist.pois mean
  else
    Dist.normal mean var

/-- The reference environment of `project_row`: the tables and module-level
lookups of props_model.py lines 47-142, already parsed.  `oppLookup t c`
is `opp.loc[t, c]` (`none` models a missing team, which raises a KeyError
that `_z` catches); `mu`/`sdRep` are the league mean and the league
standard deviation after `.replace(0, np.nan)` of line 63 (`none` models
NaN; the numeric value of a non-degenerate standard deviation is an
irrational square root computed by pandas and is therefore taken as an
input here — its relation to the column data is verified separately on
`zColumn` below).  `survival d l` abstracts the scipy survival value
`1 - cdf(l)` of the chosen distribution `d`. -/
structure Env where
  pace : List (String × Option ℚ)
  oppLookup : String → OppCol → Option ℚ
  mu : OppCol → Option ℚ
  sdRep : OppCol → Option ℚ
  base : List (String × Baseline)
  minutesScale : List (String × ℚ)
  onoff : List ((String × String) × ℚ)
  survival : Dist → ℚ → ℚ

/-- props_model.py line 69: league pace is the mean of the `PACE` column
with NaN entries skipped (pandas `.mean()`); NaN when the tab is empty or
every entry is NaN. -/
def leaguePace (pace : List (String × Option ℚ)) : Option ℚ :=
  let vals := pace.filterMap Prod.snd
  if vals.isEmpty then none else some (vals.sum / vals.length)

/-- The lookup `df_pace.loc[t, "PACE"] if t in df_pace.index else np.nan`
(props_model.py lines 96-97); an absent team and a NaN pace cell behave
identically downstream, both are `none`. -/
def lookupPace (pace : List (String × Option ℚ)) (t : String) : Option ℚ :=
  match pace.lookup t with
  | some v => v
  | none => none

/-- props_model.py lines 95-102: `(pace factor, game pace)`.  The game
pace is the mean of the two teams' paces, falling back to whichever is
available; the factor is game pace over league pace when the latter is a
positive number, else `1.0`. -/
def pace_factor (env : Env) (team oppName : String) : ℚ × Option ℚ :=
  let tp := lookupPace env.pace team
  let op := lookupPace env.pace oppName
  let gp : Option ℚ :=
    match tp, op with
    | none, some o2 => some o2
    | some t2, none => some t2
    | some t2, some o2 => some ((t2 + o2) / 2)
    | none, none => none
  let pf : ℚ :=
    match leaguePace env.pace, gp with
    | some lp, some g => if 0 < lp then g / lp else 1
    | _, _ => 1
  (pf, gp)

/-- props_model.py lines 91-93 as wrapped by the `_z` of lines 162-164:
`(value - league_mean) / (std if std is not NaN else 1.0)`, with any
lookup failure (missing team row or non-numeric column, a KeyError)
caught and turned into `0.0`. -/
def zCaught (env : Env) (team : String) (c : OppCol) : ℚ :=
  match env.oppLookup team c, env.mu c with
  | some v, some m =>
      (v - m) / (match env.sdRep c with
                 | some s => s
                 | none => 1)
  | _, _ => 0

/-- One record of the `lines` tab as handed to `project_row`
(props_model.py lines 241-243).  The string fields carry the values after
the normalization the code applies before using them — `strip()` on
player/team/opponent (lines 53-55 and 152-154) and `strip().lower()` on
`prop` (line 155).  `line = none` models a cell on which `float()` raises
or that is missing — the `try/except` of lines 156-157 turns both into
NaN. -/
structure LineRow where
  player : String
  team : String
  opponent : String
  prop : String
  line : Option ℚ
  over_odds : OddsVal
  under_odds : OddsVal
  book : String
deriving DecidableEq

/-- The recognized prop aliases of props_model.py lines 184-201; any other
prop string makes `project_row` return `None` (lines 202-203). -/
def recognizedProps : List String :=
  ["points", "pts", "rebounds", "reb", "assists", "ast",
   "3pm", "3ptm", "3-pointers made", "3pt made", "threes", "3s",
   "steals", "stl", "turnovers", "tov"]

/-- props_model.py lines 151-203: the projected mean and variance of a
line, `none` when the prop string is unrecognized.  Baselines default to
the league-typical constants of lines 169-176, mean minutes are scaled by
the rest factor (lines 178-180), and the per-prop linear combinations of
lines 184-201 are reproduced verbatim (decimal constants as exact
rationals). -/
def meanVar (env : Env) (r : LineRow) : Option (ℚ × ℚ) :=
  let player := r.player
  let team := r.team
  let oppName := r.opponent
  let prop := r.prop
  let pf := (pace_factor env team oppName).1
  let z3a := zCaught env oppName OppCol.fg3a
  let z3p := zCaught env oppName OppCol.fg3pct
  let zfta := zCaught env oppName OppCol.fta
  let zreb := zCaught env oppName OppCol.reb
  let zast := zCaught env oppName OppCol.ast
  let ztov := zCaught env oppName OppCol.tov
  let zpts := zCaught env oppName OppCol.pts
  let b := (env.base.lookup player.toLower).getD Baseline.empty
  let usage := b.usage_pct.getD (22/100)
  let ar3 := b.ar3.getD (32/100)
  let ftrate := b.ft_rate.getD (25/100)
  let rrate := b.reb_rate.getD (14/100)
  let arate := b.ast_rate.getD (18/100)
  let srate := b.stl_rate.getD (25/1000)
  let trate := b.tov_rate.getD (12/100)
  let ms := (env.minutesScale.lookup team).getD 1
  let min_mean := b.min_mean.getD 30 * ms
  let dp40 := (env.onoff.lookup (player.toLower, team)).getD 0
  let _ := ftrate
  if prop ∈ ["points", "pts"] then
    let mean := max 5 ((14 + 22*usage + 3*pf + (14/10)*zpts + (3/10)*zfta
                        + (4/10)*z3a + (3/10)*z3p + dp40) * (min_mean/32))
    some (mean, mean * (27/20))
  else if prop ∈ ["rebounds", "reb"] then
    let mean := max 2 (((13/2) + 40*rrate + (8/10)*pf + (35/100)*zreb
                        + dp40*(2/10)) * (min_mean/32))
    some (mean, mean * (13/10))
  else if prop ∈ ["assists", "ast"] then
    let mean := max 1 (((38/10) + 35*arate + (7/10)*pf + (35/100)*zast
                        - (2/10)*ztov + dp40*(25/100)) * (min_mean/32))
    some (mean, mean * (13/10))
  else if prop ∈ ["3pm", "3ptm", "3-pointers made", "3pt made", "threes", "3s"] then
    let lam := max (1/10) (((18/10) + 5*ar3 + (35/100)*pf + (25/100)*z3a
                           + (15/100)*z3p + dp40*(1/10)) * (min_mean/32))
    some (lam, lam)
  else if prop ∈ ["steals", "stl"] then
    let lam := max (1/20) (((9/10) + 22*srate + (1/10)*pf + (15/100)*ztov) * (min_mean/32))
    some (lam, lam)
  else if prop ∈ ["turnovers", "tov"] then
    let lam := max (3/10) (((18/10) + 20*trate + (2/10)*pf + (15/100)*ztov) * (min_mean/32))
    some (lam, lam)
  else
    none

/-- The dictionary appended for one projected line (props_model.py
lines 231-238).  The `round(_, 3)` / `round(_, 4)` display rounding of the
source is not modelled: fields carry the exact values.  `p_over`,
`p_under` and `edge_bp` are `none` when the line value was NaN (NaN
propagates through the scipy survival functions and the arithmetic of
lines 223-229). -/
structure ProjRow where
  player : String
  team : String
  opponent : String
  prop : String
  line : Option ℚ
  proj_mean : ℚ
  proj_var : ℚ
  p_over : Option ℚ
  p_under : Option ℚ
  best_side : String
  edge_bp : Option ℚ
  pace_factor : ℚ
  book : String
  over_odds : OddsVal
  under_odds : OddsVal
deriving DecidableEq

/-- The output dictionary of props_model.py lines 205-238 for a line with
projected moments `mv` and implied probabilities `pOImp`/`pUImp`:
`p_over` is the scipy survival value of the chosen distribution at the
line (NaN line in, NaN out), `p_under = 1 - p_over`, the edges are model
minus implied probability, and `best_side` follows the comparison
`edge_over >= edge_under` of line 228 — false when either edge is NaN,
so a NaN line yields `best_side = "UNDER"` with `edge_bp` NaN, and the
row is still produced. -/
def mkRow (env : Env) (r : LineRow) (mv : ℚ × ℚ) (pOImp pUImp : ℚ) : ProjRow :=
  let dist := distFor r.prop mv.1 mv.2
  let pOver := r.line.map (env.survival dist)
  let pUnder := pOver.map (fun x => 1 - x)
  let edgeOver := pOver.map (fun x => x - pOImp)
  let edgeUnder := pUnder.map (fun x => x - pUImp)
  let bestSide :=
    match edgeOver, edgeUnder with
    | some a, some b => if b ≤ a then "OVER" else "UNDER"
    | _, _ => "UNDER"
  { player := r.player, team := r.team,
    opponent := r.opponent, prop := r.prop,
    line := r.line, proj_mean := mv.1, proj_var := mv.2,
    p_over := pOver, p_under := pUnder,
    best_side := bestSide,
    edge_bp := if bestSide = "OVER" then edgeOver else edgeUnder,
    pace_factor := (pace_factor env r.team r.opponent).1,
    book := r.book, over_odds := r.over_odds, under_odds := r.under_odds }

/-- props_model.py lines 151-238: project one line.  `ok none` is the
`return None` of line 203 (unrecognized prop); `error ()` is a raised
exception (an unparseable present odds cell, lines 224-225); otherwise
one output row. -/
def project_row (env : Env) (r : LineRow) : Except Unit (Option ProjRow) :=
  match meanVar env r with
  | none => Except.ok none
  | some mv =>
    match impliedOrHalf r.over_odds, impliedOrHalf r.under_odds with
    | Except.ok pOImp, Except.ok pUImp => Except.ok (some (mkRow env r mv pOImp pUImp))
    | _, _ => Except.error ()

/-- props_model.py lines 240-247: the batch loop.  A raising row is
skipped (`except: continue`) and a `None` result appends nothing
(`if res:`); every other row contributes exactly one output record. -/
def runBatch (env : Env) (rs : List LineRow) : List ProjRow :=
  rs.filterMap (fun r =>
    match project_row env r with
    | Except.ok (some out) => some out
    | _ => none)

/-- Holds iff `project_row` produces an output record for this line. -/
def emits (env : Env) (r : LineRow) : Bool :=
  match project_row env r with
  | Except.ok (some _) => true
  | _ => false

/-- The output row of a line, `none` when the row raises or is skipped. -/
def projOut (env : Env) (r : LineRow) : Option ProjRow :=
  match project_row env r with
  | Except.ok o => o
  | _ => none

/-- A minimal reference environment: every optional tab empty, the
`opponent_per100_last6` and `pace_last6` tabs without any of the teams
that occur in the example lines, and a survival function that is
constantly `1/2`.  Under it every z-score is `0`, the pace factor is `1`
and every baseline falls back to its league-typical default. -/
def env0 : Env :=
  { pace := [], oppLookup := fun _ _ => none, mu := fun _ => none,
    sdRep := fun _ => none, base := [], minutesScale := [], onoff := [],
    survival := fun _ _ => 1/2 }

/-- A well-formed `points` line used in concrete batches. -/
def goodLine : LineRow :=
  { player := "A", team := "T", opponent := "O", prop := "points",
    line := some (41/2), over_odds := OddsVal.missing,
    under_odds := OddsVal.missing, book := "b" }

/-- The same line with an unparseable `line` cell: `float()` raised and
the `try/except` of props_model.py lines 156-157 left `line = NaN`. -/
def badLine : LineRow :=
  { player := "A", team := "T", opponent := "O", prop := "points",
    line := none, over_odds := OddsVal.missing,
    under_odds := OddsVal.missing, book := "b" }

/-- A line whose present `over_odds` cell does not parse: `float()`
raises at props_model.py line 224 and the exception escapes to the batch
loop. -/
def raisingLine : LineRow :=
  { player := "A", team := "T", opponent := "O", prop := "points",
    line := some (41/2), over_odds := OddsVal.bad,
    under_odds := OddsVal.missing, book := "b" }

/-- A 100-row batch whose 50th row (index 49) has an unparseable line
value. -/
def batch100 : List LineRow :=
  List.replicate 49 goodLine ++ badLine :: List.replicate 50 goodLine

/-- A line for the alias `threes`, recognized by the projection dispatch
of props_model.py line 193 but absent from the Poisson branch list of
line 212. -/
def threesLine : LineRow :=
  { player := "A", team := "T", opponent := "O", prop := "threes",
    line := some (5/2), over_odds := OddsVal.missing,
    under_odds := OddsVal.missing, book := "b" }

/-- A line with an unrecognized prop string. -/
def blocksLine : LineRow :=
  { player := "A", team := "T", opponent := "O", prop := "blocks",
    line := some (5/2), over_odds := OddsVal.missing,
    under_odds := OddsVal.missing, book := "b" }

/-- The environment of the edge-computation example: the model probability
of the over is `0.55` and the odds are `+100` over / `-120` under. -/
def envE : Env :=
  { pace := [], oppLookup := fun _ _ => none, mu := fun _ => none,
    sdRep := fun _ => none, base := [], minutesScale := [], onoff := [],
    survival := fun _ _ => 11/20 }

/-- The line of the edge-computation example. -/
def lineE : LineRow :=
  { player := "A", team := "T", opponent := "O", prop := "points",
    line := some (41/2), over_odds := OddsVal.val 100,
    under_odds := OddsVal.val (-120), book := "b" }

/-- The `p_over` field of the produced row (`none` when the line raised
or was skipped; inner `none` when the value is NaN). -/
def pOverAt (env : Env) (r : LineRow) : Option (Option ℚ) :=
  (projOut env r).map ProjRow.p_over

/-- The `p_under` field of the produced row. -/
def pUnderAt (env : Env) (r : LineRow) : Option (Option ℚ) :=
  (projOut env r).map ProjRow.p_under

/-- The `best_side` field of the produced row. -/
def bestSideAt (env : Env) (r : LineRow) : Option String :=
  (projOut env r).map ProjRow.best_side

/-- The `edge_bp` field of the produced row. -/
def edgeBpAt (env : Env) (r : LineRow) : Option (Option ℚ) :=
  (projOut env r).map ProjRow.edge_bp

/-- pandas column mean of props_model.py line 63, as a rational. -/
def sampleMean (xs : List ℚ) : ℚ := xs.sum / xs.length

/-- The square of the pandas (ddof = 1) sample standard deviation of a
column; `none` when fewer than two values exist (the std is then NaN).
The std of line 63 is zero, and hence turned into NaN by
`.replace(0, np.nan)`, exactly when this variance is zero. -/
def sampleVarOpt (xs : List ℚ) : Option ℚ :=
  if 2 ≤ xs.length then
    some ((xs.map (fun x => (x - sampleMean xs) ^ 2)).sum / ((xs.length : ℚ) - 1))
  else none

/-- props_model.py lines 91-93 over one opponent-allowance column `xs`
(the value of team `i` is `xs.get i`): `(v - mu) / (sd if sd is not NaN
else 1.0)` where `sd` is the column std after `.replace(0, np.nan)`.
The parameter `sdv` stands for the numeric value of a non-degenerate
standard deviation (a square root, not representable in `ℚ`); it is
unused whenever the std is zero or undefined. -/
def zColumn (xs : List ℚ) (i : Fin xs.length) (sdv : ℚ) : ℚ :=
  (xs.get i - sampleMean xs) /
    (match sampleVarOpt xs with
     | some w => if w = 0 then 1 else sdv
     | none => 1)

end PropsModel

namespace RunDaily

/-- run_wnba_daily.py lines 351-355: the z-score component of the
suggestion engine's `z`.  The league std is first mapped to NaN unless it
is strictly positive (line 354), and the division is only performed when
the result is truthy and not NaN (line 355) — so a zero, negative, or NaN
std yields `0.0`.  `stdm = none` models a NaN std. -/
def zDaily (val m : ℚ) (stdm : Option ℚ) : ℚ :=
  match stdm with
  | none => 0
  | some s => if 0 < s then (val - m) / s else 0

/-- run_wnba_daily.py lines 374-377. -/
def decide_over_under (pos neg : ℤ) : String :=
  if 1 ≤ pos - neg then "OVER"
  else if 1 ≤ neg - pos then "UNDER"
  else "PASS"

/-- run_wnba_daily.py lines 379-388. -/
def conf_from_score (p n : ℤ) : String :=
  let net := p - n
  if 3 ≤ net then "+++"
  else if net = 2 then "++"
  else if net = 1 then "+"
  else if net = 0 then "-"
  else if net ≤ -3 then "UNDER +++"
  else if net = -2 then "UNDER ++"
  else if net = -1 then "UNDER +"
  else "-"

/-- run_wnba_daily.py line 470: `decide_over_under(pos, neg) if (pos or
neg) else "PASS"` — the signal counts are sums of booleans, hence
naturals, and the Python truthiness gate is `pos ≠ 0 ∨ neg ≠ 0`. -/
def suggestionOf (pos neg : ℕ) : String :=
  if pos ≠ 0 ∨ neg ≠ 0 then decide_over_under (pos : ℤ) (neg : ℤ) else "PASS"

/-- run_wnba_daily.py line 471: `conf_from_score(pos, neg) if (pos or
neg) else "-"`. -/
def confidenceOf (pos neg : ℕ) : String :=
  if pos ≠ 0 ∨ neg ≠ 0 then conf_from_score (pos : ℤ) (neg : ℤ) else "-"

/-- The confidence ladder exactly as the specification words it: a
function of the net score alone.  Kept separate from `conf_from_score`
(which is translated from the source) so the two can be compared. -/
def ladderSpec (net : ℤ) : String :=
  if 3 ≤ net then "+++"
  else if net = 2 then "++"
  else if net = 1 then "+"
  else if net = 0 then "-"
  else if net = -1 then "UNDER +"
  else if net = -2 then "UNDER ++"
  else "UNDER +++"

end RunDaily

namespace Features

/-- One row of the `player_game_log` tab after the numeric coercion of
features.py line 26 (src/roles/features.py). -/
structure GameLog where
  mins : ℚ
  pts : ℚ
  reb : ℚ
  ast : ℚ
  stl : ℚ
  blk : ℚ
  tov : ℚ
  fga : ℚ
  fg3a : ℚ
  fta : ℚ
deriving DecidableEq

/-- features.py lines 27-29: minutes are `replace(0, np.nan)`-ed and each
counting stat becomes `stat / minutes * 40`; `none` models the NaN of a
zero-minutes game. -/
def rate40 (stat mins : ℚ) : Option ℚ :=
  if mins = 0 then none else some (stat / mins * 40)

/-- features.py line 33: `fg3a / fga.replace(0, nan)` and
`fta / fga.replace(0, nan)`. -/
def ratioOf (num den : ℚ) : Option ℚ :=
  if den = 0 then none else some (num / den)

/-- The per-40 feature columns produced by the `per40` helper of
features.py lines 27-34. -/
structure Per40Row where
  pts40 : Option ℚ
  reb40 : Option ℚ
  ast40 : Option ℚ
  stl40 : Option ℚ
  blk40 : Option ℚ
  tov40 : Option ℚ
  fga40 : Option ℚ
  fg3a40 : Option ℚ
  fta40 : Option ℚ
  three_rate : Option ℚ
  ft_rate : Option ℚ
  mins : ℚ
deriving DecidableEq

/-- features.py lines 27-34: one game-log row to its per-40 rates. -/
def per40 (g : GameLog) : Per40Row :=
  { pts40 := rate40 g.pts g.mins, reb40 := rate40 g.reb g.mins,
    ast40 := rate40 g.ast g.mins, stl40 := rate40 g.stl g.mins,
    blk40 := rate40 g.blk g.mins, tov40 := rate40 g.tov g.mins,
    fga40 := rate40 g.fga g.mins, fg3a40 := rate40 g.fg3a g.mins,
    fta40 := rate40 g.fta g.mins,
    three_rate := ratioOf g.fg3a g.fga, ft_rate := ratioOf g.fta g.fga,
    mins := g.mins }

/-- features.py line 43: the final `.fillna(0)` of the feature output —
an undefined (NaN) value becomes `0`. -/
def fillna0 (x : Option ℚ) : ℚ := x.getD 0

end Features

namespace Label

/-- An offense cluster centroid: the five offense features of
src/roles/label.py line 3. -/
structure Centroid where
  pts40 : ℚ
  ast40 : ℚ
  three_rate : ℚ
  ft_rate : ℚ
  tov40 : ℚ
deriving DecidableEq

/-- src/roles/label.py lines 2-9: the offense labeling rules, evaluated
in order with the first match winning. -/
def name_offense (c : Centroid) : String :=
  if 45/100 < c.three_rate ∧ c.ast40 < 4 ∧ c.ft_rate < 35/100 then "Shooter"
  else if 45/100 < c.ft_rate ∧ 18 < c.pts40 then "Driver/Slasher"
  else if 6 < c.ast40 ∧ c.pts40 < 20 then "Facilitator"
  else if 22 < c.pts40 ∧ (c.three_rate < 25/100 ∨ 45/100 < c.ft_rate) then "Primary Scorer"
  else if 35/100 < c.three_rate ∧ 5 < c.ast40 then "Combo Guard"
  else "Balanced Wing"

end Label

namespace Smooth

/-- numpy `clip(1e-9, 1.0)` applied elementwise (src/roles/smooth.py
line 7). -/
noncomputable def clip9 (x : ℝ) : ℝ := min (max x (1/10^9)) 1

/-- The clamp-and-renormalize step `p = p.clip(1e-9, 1.0); p = p/p.sum()`
of src/roles/smooth.py line 7. -/
noncomputable def renorm (p : List ℝ) : List ℝ :=
  (p.map clip9).map (fun x => x / (p.map clip9).sum)

/-- Shannon entropy `H = -Σ x log x` (src/roles/smooth.py line 8). -/
noncomputable def entropy (l : List ℝ) : ℝ :=
  -((l.map (fun x => x * Real.log x)).sum)

/-- src/roles/smooth.py lines 6-8: clamp the probability vector away from
zero, renormalize, take Shannon entropy `H` and return `1 - H / log k`
for `k` the vector length (or `1.0` when `log k` is not positive). -/
noncomputable def stability (p : List ℝ) : ℝ :=
  if 0 < Real.log p.length then 1 - entropy (renorm p) / Real.log p.length else 1

end Smooth

/-! ## Helper lemmas -/

namespace PropsModel

theorem exists_of_emits {env : Env} {r : LineRow} (h : emits env r = true) :
    ∃ out, project_row env r = Except.ok (some out) := by
  unfold emits at h
  revert h
  cases hp : project_row env r with
  | error e => intro h; exact absurd h (by simp)
  | ok o =>
    cases o with
    | none => intro h; exact absurd h (by simp)
    | some out => intro _; exact ⟨out, rfl⟩

theorem runBatch_append (env : Env) (l1 l2 : List LineRow) :
    runBatch env (l1 ++ l2) = runBatch env l1 ++ runBatch env l2 :=
  List.filterMap_append l1 l2 _

theorem runBatch_cons_emits {env : Env} {r : LineRow} (h : emits env r = true)
    (rs : List LineRow) :
    (runBatch env (r :: rs)).length = (runBatch env rs).length + 1 := by
  obtain ⟨out, hp⟩ := exists_of_emits h
  simp [runBatch, List.filterMap_cons, hp]

theorem runBatch_replicate_emits {env : Env} {r : LineRow} (h : emits env r = true)
    (n : ℕ) : (runBatch env (List.replicate n r)).length = n := by
  induction n with
  | zero => simp [runBatch]
  | succ k ih => rw [List.replicate_succ, runBatch_cons_emits h, ih]

theorem runBatch_cons_error {env : Env} {r : LineRow}
    (h : project_row env r = Except.error ()) (rs : List LineRow) :
    runBatch env (r :: rs) = runBatch env rs := by
  simp [runBatch, List.filterMap_cons, h]

theorem runBatch_cons_none {env : Env} {r : LineRow}
    (h : project_row env r = Except.ok none) (rs : List LineRow) :
    runBatch env (r :: rs) = runBatch env rs := by
  simp [runBatch, List.filterMap_cons, h]

theorem meanVar_good : meanVar env0 goodLine = some (819/40, 22113/800) := by
  simp only [meanVar, env0, goodLine, pace_factor, lookupPace, leaguePace, zCaught,
    Baseline.empty, List.lookup_nil, List.filterMap_nil, List.isEmpty_nil]
  norm_num

theorem meanVar_bad : meanVar env0 badLine = some (819/40, 22113/800) := by
  simp only [meanVar, env0, badLine, pace_factor, lookupPace, leaguePace, zCaught,
    Baseline.empty, List.lookup_nil, List.filterMap_nil, List.isEmpty_nil]
  norm_num

theorem emits_good : emits env0 goodLine = true := by
  have h1 : goodLine.over_odds = OddsVal.missing := rfl
  have h2 : goodLine.under_odds = OddsVal.missing := rfl
  simp only [emits, project_row, meanVar_good, h1, h2, impliedOrHalf]

theorem emits_bad : emits env0 badLine = true := by
  have h1 : badLine.over_odds = OddsVal.missing := rfl
  have h2 : badLine.under_odds = OddsVal.missing := rfl
  simp only [emits, project_row, meanVar_bad, h1, h2, impliedOrHalf]

theorem batch100_length : (runBatch env0 batch100).length = 100 := by
  rw [batch100, runBatch_append, List.length_append,
    runBatch_replicate_emits emits_good, runBatch_cons_emits emits_bad,
    runBatch_replicate_emits emits_good]

theorem meanVar_none_of_unrecognized (env : Env) (r : LineRow)
    (h : r.prop ∉ recognizedProps) : meanVar env r = none := by
  simp only [recognizedProps, List.mem_cons, List.not_mem_nil, or_false, not_or] at h
  obtain ⟨h1, h2, h3, h4, h5, h6, h7, h8, h9, h10, h11, h12, h13, h14, h15, h16⟩ := h
  simp only [meanVar, List.mem_cons, List.not_mem_nil, or_false,
    h1, h2, h3, h4, h5, h6, h7, h8, h9, h10, h11, h12, h13, h14, h15, h16,
    if_false, false_or, or_self]

theorem meanVar_threes : meanVar env0 threesLine = some (225/64, 225/64) := by
  simp only [meanVar, env0, threesLine, pace_factor, lookupPace, leaguePace, zCaught,
    Baseline.empty, List.lookup_nil, List.filterMap_nil, List.isEmpty_nil]
  norm_num
  simp

theorem meanVar_lineE : meanVar envE lineE = some (819/40, 22113/800) := by
  simp only [meanVar, envE, lineE, pace_factor, lookupPace, leaguePace, zCaught,
    Baseline.empty, List.lookup_nil, List.filterMap_nil, List.isEmpty_nil]
  norm_num

theorem project_row_raising : project_row env0 raisingLine = Except.error () := by
  have hmv : meanVar env0 raisingLine = some (819/40, 22113/800) := by
    simp only [meanVar, env0, raisingLine, pace_factor, lookupPace, leaguePace, zCaught,
      Baseline.empty, List.lookup_nil, List.filterMap_nil, List.isEmpty_nil]
    norm_num
  have h1 : raisingLine.over_odds = OddsVal.bad := rfl
  simp only [project_row, hmv, h1, impliedOrHalf]

theorem impliedOrHalf_over100 : impliedOrHalf (OddsVal.val 100) = Except.ok (1/2) := by
  simp only [impliedOrHalf]
  norm_num

theorem impliedOrHalf_underNeg120 : impliedOrHalf (OddsVal.val (-120)) = Except.ok (6/11) := by
  simp only [impliedOrHalf]
  norm_num

theorem pOverAt_lineE : pOverAt envE lineE = some (some (11/20)) := by
  have h1 : lineE.over_odds = OddsVal.val 100 := rfl
  have h2 : lineE.under_odds = OddsVal.val (-120) := rfl
  have h3 : lineE.line = some (41/2) := rfl
  simp only [pOverAt, projOut, project_row, meanVar_lineE, h1, h2,
    impliedOrHalf_over100, impliedOrHalf_underNeg120, h3, Option.map_some]
  rfl

end PropsModel

open PropsModel

/-! ## Claim theorems -/

/-- C1: for every opponent allowance column whose league standard
deviation is zero or undefined, the opponent z-score used by the
projection engine (`z` of props_model.py lines 91-93) and by the
suggestion engine (`z` of run_wnba_daily.py lines 351-355) is exactly 0 —
no error is raised and no other value is produced.  In props_model the
degenerate std is replaced by the divisor 1.0, and the numerator is then
necessarily zero: a zero or undefined sample standard deviation forces
every column value to equal the column mean. -/
theorem C1_degenerate_std_zscore_zero :
    (∀ (xs : List ℚ) (i : Fin xs.length) (sdv : ℚ),
        sampleVarOpt xs = none ∨ sampleVarOpt xs = some 0 →
        zColumn xs i sdv = 0) ∧
    (∀ (val m : ℚ) (stdm : Option ℚ),
        stdm = none ∨ stdm = some 0 → RunDaily.zDaily val m stdm = 0) := by
  constructor
  · intro xs i sdv h
    have hget : xs.get i = sampleMean xs := by
      rcases h with h | h
      · have hlen : ¬ 2 ≤ xs.length := by
          intro h2
          rw [sampleVarOpt, if_pos h2] at h
          exact Option.noConfusion h
        have h1 : xs.length = 1 := by
          have := i.isLt
          omega
        obtain ⟨a, ha⟩ := List.length_eq_one.mp h1
        subst ha
        have hmem : [a].get i ∈ [a] := List.get_mem _ _ i.isLt
        have hval : [a].get i = a := List.mem_singleton.mp hmem
        rw [hval]
        simp [sampleMean]
      · have hlen : 2 ≤ xs.length := by
          by_contra hc
          rw [sampleVarOpt, if_neg hc] at h
          exact Option.noConfusion h
        rw [sampleVarOpt, if_pos hlen] at h
        have hinj := Option.some.inj h
        have hden : ((xs.length : ℚ) - 1) ≠ 0 := by
          have h2 : (2:ℚ) ≤ (xs.length : ℚ) := by exact_mod_cast hlen
          linarith
        have hS : (xs.map (fun x => (x - sampleMean xs) ^ 2)).sum = 0 := by
          rcases div_eq_zero_iff.mp hinj with h' | h'
          · exact h'
          · exact absurd h' hden
        have hmem : (xs.get i - sampleMean xs) ^ 2 ∈
            xs.map (fun x => (x - sampleMean xs) ^ 2) :=
          List.mem_map_of_mem _ (List.get_mem xs i.1 i.isLt)
        have hnn : ∀ y ∈ xs.map (fun x => (x - sampleMean xs) ^ 2), 0 ≤ y := by
          intro y hy
          obtain ⟨x, _, rfl⟩ := List.mem_map.mp hy
          exact sq_nonneg _
        have hsq : (xs.get i - sampleMean xs) ^ 2 = 0 :=
          List.all_zero_of_le_zero_le_of_sum_eq_zero hnn hS hmem
        have hz : xs.get i - sampleMean xs = 0 := by
          have h0 := sq_eq_zero_iff.mp hsq
          exact h0
        linarith
    rw [zColumn, hget, sub_self, zero_div]
  · intro val m stdm h
    rcases h with rfl | rfl
    · rfl
    · simp [RunDaily.zDaily]

/-- Witness for C1 at a concrete degenerate column `[5, 5]` (sample
standard deviation 0) and a NaN suggestion-engine std. -/
theorem C1_degenerate_std_zscore_zero_witness :
    (sampleVarOpt [(5:ℚ), 5] = none ∨ sampleVarOpt [(5:ℚ), 5] = some 0) ∧
    zColumn [(5:ℚ), 5] ⟨0, by norm_num⟩ 7 = 0 ∧
    RunDaily.zDaily 3 1 none = 0 := by
  have hvar : sampleVarOpt [(5:ℚ), 5] = some 0 := by
    rw [sampleVarOpt, if_pos (by norm_num)]
    simp [sampleMean]
  exact ⟨Or.inr hvar,
    C1_degenerate_std_zscore_zero.1 [(5:ℚ), 5] ⟨0, by norm_num⟩ 7 (Or.inr hvar),
    C1_degenerate_std_zscore_zero.2 3 1 none (Or.inl rfl)⟩

/-- C2 (counterexample): the claim predicts that a 100-row batch whose
50th row has an unparseable line value yields exactly 99 output rows.  In
the code the `try/except` of props_model.py lines 156-157 catches the
parse failure inside `project_row` and sets `line = NaN`, no exception
reaches the batch loop, and the row is still emitted (with NaN
probability fields) — the batch yields 100 rows, not 99. -/
theorem C2_counterexample_hundred_rows :
    (runBatch env0 batch100).length = 100 ∧ (runBatch env0 batch100).length ≠ 99 := by
  refine ⟨batch100_length, ?_⟩
  rw [batch100_length]
  decide

/-- C2 (amended): any single line whose projection raises an exception is
skipped by the batch loop of props_model.py lines 240-247 and the
remaining lines still produce output; but an unparseable line value does
not raise — it is coerced to NaN inside `project_row` — so a 100-row
batch whose 50th row has an unparseable line value yields 100 output
rows. -/
theorem C2_skip_on_raise_and_continue :
    (∀ (env : Env) (l1 l2 : List LineRow) (r : LineRow),
        project_row env r = Except.error () →
        runBatch env (l1 ++ r :: l2) = runBatch env l1 ++ runBatch env l2) ∧
    (runBatch env0 batch100).length = 100 := by
  constructor
  · intro env l1 l2 r h
    rw [runBatch_append, runBatch_cons_error h]
  · exact batch100_length

/-- Witness for C2 at a concrete raising line (present but unparseable
over-odds cell, whose `float()` raises at props_model.py line 224). -/
theorem C2_skip_on_raise_and_continue_witness :
    project_row env0 raisingLine = Except.error () ∧
    runBatch env0 ([goodLine] ++ raisingLine :: [goodLine]) =
      runBatch env0 [goodLine] ++ runBatch env0 [goodLine] :=
  ⟨project_row_raising,
   C2_skip_on_raise_and_continue.1 env0 [goodLine] [goodLine] raisingLine project_row_raising⟩

/-- C3 (counterexample): the claim says every low-count prop (threes,
steals, turnovers) whose variance does not exceed the mean by more than
5% uses a Poisson survival function.  The projected `threes` line built
from league-typical defaults has mean = variance = 225/64 ≤ 6, yet the
branch of props_model.py line 212 tests the raw prop string against
`["3pm","3ptm","steals","stl","turnovers","tov"]`, which does not contain
`"threes"` — the Normal branch is taken instead of Poisson. -/
theorem C3_counterexample_threes_not_poisson :
    meanVar env0 threesLine = some (225/64, 225/64) ∧
    ((225:ℚ)/64 ≤ 6) ∧
    distFor "threes" (225/64) (225/64) = Dist.normal (225/64) (225/64) ∧
    (distFor "threes" (225/64) (225/64)).isPois = false := by
  have hd : distFor "threes" (225/64) (225/64) = Dist.normal (225/64) (225/64) := by
    rw [distFor, if_neg (by norm_num), if_neg (by simp)]
  exact ⟨meanVar_threes, by norm_num, hd, by rw [hd]; rfl⟩

/-- C3 (amended): the over probability is computed by a three-way branch
on (mean, variance, prop string): negative binomial moment-matched to
mean/variance when the variance exceeds the mean by more than 5%;
otherwise Poisson when the mean is at most 6 AND the prop string is one
of `3pm`, `3ptm`, `steals`, `stl`, `turnovers`, `tov`; otherwise Normal
with the given mean and standard deviation.  In particular the threes
aliases `threes`, `3s`, `3-pointers made`, `3pt made` never take the
Poisson branch, and a low-count prop with mean above 6 falls to the
Normal branch. -/
theorem C3_three_way_branch (prop : String) (m v : ℚ) :
    (m * (21/20) < v →
      distFor prop m v =
        Dist.nb (if 0 < m / v ∧ m / v < 1 then m * (m / v) / (1 - m / v) else m) (m / v)) ∧
    (¬ m * (21/20) < v → m ≤ 6 →
      prop ∈ ["3pm", "3ptm", "steals", "stl", "turnovers", "tov"] →
      distFor prop m v = Dist.pois m) ∧
    (¬ m * (21/20) < v →
      ¬ (m ≤ 6 ∧ prop ∈ ["3pm", "3ptm", "steals", "stl", "turnovers", "tov"]) →
      distFor prop m v = Dist.normal m v) := by
  refine ⟨fun h => ?_, fun h hm hp => ?_, fun h hnp => ?_⟩
  · rw [distFor, if_pos h]
  · rw [distFor, if_neg h, if_pos ⟨hm, hp⟩]
  · rw [distFor, if_neg h, if_neg hnp]

/-- Witness for C3: one concrete input per branch. -/
theorem C3_three_way_branch_witness :
    distFor "points" 10 20 = Dist.nb 10 (1/2) ∧
    distFor "stl" 2 2 = Dist.pois 2 ∧
    distFor "points" 10 10 = Dist.normal 10 10 := by
  refine ⟨?_, ?_, ?_⟩
  · have h := (C3_three_way_branch "points" 10 20).1 (by norm_num)
    rw [h, if_pos (by norm_num)]
    norm_num
  · exact (C3_three_way_branch "stl" 2 2).2.1 (by norm_num) (by norm_num) (by simp)
  · exact (C3_three_way_branch "points" 10 10).2.2 (by norm_num) (by simp)

/-- C4: American odds are converted to implied probabilities by
`100/(odds+100)` for positive odds and `(-odds)/((-odds)+100)` otherwise,
a missing odds cell defaults to 0.5, and in particular +150 gives 0.4 and
-150 gives 0.6 (props_model.py lines 224-225). -/
theorem C4_implied_probability :
    (∀ o : ℚ, 0 < o → impliedOrHalf (OddsVal.val o) = Except.ok (100 / (o + 100))) ∧
    (∀ o : ℚ, o ≤ 0 → impliedOrHalf (OddsVal.val o) = Except.ok ((-o) / ((-o) + 100))) ∧
    impliedOrHalf OddsVal.missing = Except.ok (1/2) ∧
    impliedOrHalf (OddsVal.val 150) = Except.ok (2/5) ∧
    impliedOrHalf (OddsVal.val (-150)) = Except.ok (3/5) := by
  refine ⟨fun o ho => ?_, fun o ho => ?_, rfl, ?_, ?_⟩
  · simp only [impliedOrHalf, if_pos ho]
  · simp only [impliedOrHalf, if_neg (not_lt.mpr ho)]
  · simp only [impliedOrHalf]
    norm_num
  · simp only [impliedOrHalf]
    norm_num

/-- Witness for C4 at the odds of the specification example. -/
theorem C4_implied_probability_witness :
    ((0:ℚ) < 150 ∧ impliedOrHalf (OddsVal.val 150) = Except.ok (100 / (150 + 100))) ∧
    ((-150:ℚ) ≤ 0 ∧
      impliedOrHalf (OddsVal.val (-150)) = Except.ok ((-(-150:ℚ)) / ((-(-150:ℚ)) + 100))) :=
  ⟨⟨by norm_num, C4_implied_probability.1 150 (by norm_num)⟩,
   ⟨by norm_num, C4_implied_probability.2.1 (-150) (by norm_num)⟩⟩

/-- C5: for every projected line, `edge_over = p_over - implied_over`,
`edge_under = p_under - implied_under` with `p_under = 1 - p_over`, and
`best_side` is the side with the larger edge (ties to OVER), whose edge
becomes `edge_bp` (props_model.py lines 223-229). -/
theorem C5_edges_and_best_side (env : Env) (r : LineRow) (pov io iu : ℚ)
    (hpo : pOverAt env r = some (some pov))
    (hio : impliedOrHalf r.over_odds = Except.ok io)
    (hiu : impliedOrHalf r.under_odds = Except.ok iu) :
    pUnderAt env r = some (some (1 - pov)) ∧
    bestSideAt env r = some (if (1 - pov) - iu ≤ pov - io then "OVER" else "UNDER") ∧
    edgeBpAt env r = some (some (if (1 - pov) - iu ≤ pov - io then pov - io
                                 else (1 - pov) - iu)) := by
  cases hmv : meanVar env r with
  | none =>
    rw [pOverAt, projOut, project_row, hmv] at hpo
    simp at hpo
  | some mv =>
    cases hl : r.line with
    | none =>
      rw [pOverAt, projOut, project_row, hmv, hio, hiu] at hpo
      simp only [Option.map_some, mkRow, hl, Option.map_none] at hpo
      simp at hpo
    | some l =>
      rw [pOverAt, projOut, project_row, hmv, hio, hiu] at hpo
      simp only [Option.map_some, mkRow, hl] at hpo
      have hsv : env.survival (distFor r.prop mv.1 mv.2) l = pov := by
        simpa using hpo
      rw [pUnderAt, bestSideAt, edgeBpAt, projOut, project_row, hmv, hio, hiu]
      rw [← hsv]
      refine ⟨?_, ?_, ?_⟩
      · simp [mkRow, hl]
      · simp [mkRow, hl]
      · simp only [Option.map_some, mkRow, hl]
        by_cases hc : (1 - env.survival (distFor r.prop mv.1 mv.2) l) - iu
                        ≤ env.survival (distFor r.prop mv.1 mv.2) l - io
        · simp [hc]
        · simp [hc]

/-- Witness for C5 at the specification example: `p_over = 0.55`,
over odds +100 (implied 0.5), under odds -120 (implied 6/11 ≈ 0.545):
`edge_over = 0.05`, `edge_under = -21/220 ≈ -0.095`, `best_side = OVER`. -/
theorem C5_edges_and_best_side_witness :
    pUnderAt envE lineE = some (some (9/20)) ∧
    bestSideAt envE lineE = some "OVER" ∧
    edgeBpAt envE lineE = some (some (1/20)) ∧
    ((1:ℚ) - 11/20) - 6/11 = -21/220 ∧
    (-95:ℚ)/1000 - 1/1000 < -21/220 ∧ (-21:ℚ)/220 < -95/1000 + 1/1000 := by
  obtain ⟨h1, h2, h3⟩ := C5_edges_and_best_side envE lineE (11/20) (1/2) (6/11)
    pOverAt_lineE impliedOrHalf_over100 impliedOrHalf_underNeg120
  rw [if_pos (by norm_num)] at h2 h3
  refine ⟨?_, h2, ?_, by norm_num, by norm_num, by norm_num⟩
  · rw [h1]
    norm_num
  · rw [h3]
    norm_num

/-- C7: every per-40 rate is `stat / minutes * 40` (features.py
lines 27-34); minutes 20 with 10 points gives `pts40 = 20`; a
zero-minutes row gives an undefined (NaN) rate, and an undefined rate is
zero-filled by the final `.fillna(0)` of the feature output
(features.py line 43). -/
theorem C7_per40_rates :
    (∀ g : Features.GameLog, g.mins ≠ 0 →
      (Features.per40 g).pts40 = some (g.pts / g.mins * 40) ∧
      (Features.per40 g).reb40 = some (g.reb / g.mins * 40) ∧
      (Features.per40 g).ast40 = some (g.ast / g.mins * 40) ∧
      (Features.per40 g).stl40 = some (g.stl / g.mins * 40) ∧
      (Features.per40 g).blk40 = some (g.blk / g.mins * 40) ∧
      (Features.per40 g).tov40 = some (g.tov / g.mins * 40) ∧
      (Features.per40 g).fga40 = some (g.fga / g.mins * 40) ∧
      (Features.per40 g).fg3a40 = some (g.fg3a / g.mins * 40) ∧
      (Features.per40 g).fta40 = some (g.fta / g.mins * 40)) ∧
    (Features.per40 { mins := 20, pts := 10, reb := 0, ast := 0, stl := 0,
                      blk := 0, tov := 0, fga := 0, fg3a := 0, fta := 0 }).pts40
      = some 20 ∧
    (∀ g : Features.GameLog, g.mins = 0 →
      (Features.per40 g).pts40 = none ∧
      Features.fillna0 (Features.per40 g).pts40 = 0) := by
  refine ⟨fun g hg => ?_, ?_, fun g hg => ?_⟩
  · simp [Features.per40, Features.rate40, hg]
  · simp only [Features.per40, Features.rate40]
    norm_num
  · constructor
    · simp [Features.per40, Features.rate40, hg]
    · simp [Features.per40, Features.rate40, Features.fillna0, hg]

/-- Witness for C7: the concrete rows of the example. -/
theorem C7_per40_rates_witness :
    (Features.per40 { mins := 20, pts := 10, reb := 4, ast := 2, stl := 1,
                      blk := 1, tov := 3, fga := 8, fg3a := 4, fta := 2 }).pts40
      = some ((10:ℚ) / 20 * 40) ∧
    (Features.per40 { mins := 0, pts := 10, reb := 4, ast := 2, stl := 1,
                      blk := 1, tov := 3, fga := 8, fg3a := 4, fta := 2 }).pts40
      = none := by
  constructor
  · exact (C7_per40_rates.1
      { mins := 20, pts := 10, reb := 4, ast := 2, stl := 1,
        blk := 1, tov := 3, fga := 8, fg3a := 4, fta := 2 } (by norm_num)).1
  · exact (C7_per40_rates.2.2
      { mins := 0, pts := 10, reb := 4, ast := 2, stl := 1,
        blk := 1, tov := 3, fga := 8, fg3a := 4, fta := 2 } rfl).1

/-- C9: the offense labeling rules are evaluated in fixed order with the
first match winning: every centroid with `three_rate = 0.5`,
`ast40 = 2` and `ft_rate = 0.1` satisfies the first rule of
src/roles/label.py line 4 and is labeled "Shooter", whatever its other
features are. -/
theorem C9_shooter_precedence (pts tov : ℚ) :
    Label.name_offense
      { pts40 := pts, ast40 := 2, three_rate := 1/2, ft_rate := 1/10, tov40 := tov }
      = "Shooter" := by
  rw [Label.name_offense, if_pos]
  refine ⟨by norm_num, by norm_num, by norm_num⟩

/-- C10: a line whose prop string is none of the recognized aliases makes
`project_row` return `None` (props_model.py lines 202-203), and the batch
loop of lines 240-247 emits no output row for it — no error, no
placeholder. -/
theorem C10_unrecognized_prop_silently_omitted (env : Env) (r : LineRow)
    (h : r.prop ∉ recognizedProps) :
    project_row env r = Except.ok none ∧
    ∀ l1 l2 : List LineRow,
      runBatch env (l1 ++ r :: l2) = runBatch env l1 ++ runBatch env l2 := by
  have hmv := meanVar_none_of_unrecognized env r h
  have hpr : project_row env r = Except.ok none := by rw [project_row, hmv]
  exact ⟨hpr, fun l1 l2 => by rw [runBatch_append, runBatch_cons_none hpr]⟩

/-- Witness for C10 at a concrete `blocks` line. -/
theorem C10_unrecognized_prop_silently_omitted_witness :
    project_row env0 blocksLine = Except.ok none ∧
    runBatch env0 ([goodLine] ++ blocksLine :: []) =
      runBatch env0 [goodLine] ++ runBatch env0 [] := by
  have h : blocksLine.prop ∉ recognizedProps := by decide
  obtain ⟨h1, h2⟩ := C10_unrecognized_prop_silently_omitted env0 blocksLine h
  exact ⟨h1, h2 [goodLine] []⟩

theorem conf_eq_ladder (p n : ℤ) :
    RunDaily.conf_from_score p n = RunDaily.ladderSpec (p - n) := by
  unfold RunDaily.conf_from_score RunDaily.ladderSpec
  by_cases h3 : 3 ≤ p - n
  · rw [if_pos h3, if_pos h3]
  rw [if_neg h3, if_neg h3]
  by_cases h2 : p - n = 2
  · rw [if_pos h2, if_pos h2]
  rw [if_neg h2, if_neg h2]
  by_cases h1 : p - n = 1
  · rw [if_pos h1, if_pos h1]
  rw [if_neg h1, if_neg h1]
  by_cases h0 : p - n = 0
  · rw [if_pos h0, if_pos h0]
  rw [if_neg h0, if_neg h0]
  by_cases hm3 : p - n ≤ -3
  · rw [if_pos hm3, if_neg (by omega), if_neg (by omega)]
  rw [if_neg hm3]
  by_cases hm2 : p - n = -2
  · rw [if_pos hm2, if_neg (by omega), if_pos hm2]
  rw [if_neg hm2]
  by_cases hm1 : p - n = -1
  · rw [if_pos hm1, if_pos hm1]
  exact (by omega : False).elim

theorem suggestionOf_eq_decide (pos neg : ℕ) :
    RunDaily.suggestionOf pos neg = RunDaily.decide_over_under pos neg := by
  unfold RunDaily.suggestionOf
  by_cases h : pos ≠ 0 ∨ neg ≠ 0
  · rw [if_pos h]
  · rw [if_neg h]
    push_neg at h
    obtain ⟨hp, hn⟩ := h
    subst hp
    subst hn
    unfold RunDaily.decide_over_under
    rw [if_neg (by omega), if_neg (by omega)]

theorem confidenceOf_eq_conf (pos neg : ℕ) :
    RunDaily.confidenceOf pos neg = RunDaily.conf_from_score pos neg := by
  unfold RunDaily.confidenceOf
  by_cases h : pos ≠ 0 ∨ neg ≠ 0
  · rw [if_pos h]
  · rw [if_neg h]
    push_neg at h
    obtain ⟨hp, hn⟩ := h
    subst hp
    subst hn
    unfold RunDaily.conf_from_score
    rw [if_neg (by omega), if_neg (by omega), if_neg (by omega), if_pos (by omega)]

/-- C8: the suggestion (including the `if (pos or neg)` gate of
run_wnba_daily.py line 470) is OVER iff `pos - neg ≥ 1`, UNDER iff
`neg - pos ≥ 1`, else PASS; and the confidence tier equals the fixed
ladder of the net score `pos - neg`: ≥3 → "+++", 2 → "++", 1 → "+",
0 → "-", -1 → "UNDER +", -2 → "UNDER ++", ≤-3 → "UNDER +++". -/
theorem C8_decision_rule_and_confidence_ladder (pos neg : ℕ) :
    (RunDaily.suggestionOf pos neg = "OVER" ↔ 1 ≤ (pos:ℤ) - (neg:ℤ)) ∧
    (RunDaily.suggestionOf pos neg = "UNDER" ↔ 1 ≤ (neg:ℤ) - (pos:ℤ)) ∧
    (RunDaily.suggestionOf pos neg = "PASS" ↔ pos = neg) ∧
    RunDaily.confidenceOf pos neg = RunDaily.ladderSpec ((pos:ℤ) - (neg:ℤ)) := by
  rw [suggestionOf_eq_decide, confidenceOf_eq_conf, conf_eq_ladder]
  unfold RunDaily.decide_over_under
  refine ⟨?_, ?_, ?_, rfl⟩
  · by_cases h1 : 1 ≤ (pos:ℤ) - neg
    · rw [if_pos h1]
      exact iff_of_true rfl h1
    · rw [if_neg h1]
      by_cases h2 : 1 ≤ (neg:ℤ) - pos
      · rw [if_pos h2]
        exact iff_of_false (by decide) h1
      · rw [if_neg h2]
        exact iff_of_false (by decide) h1
  · by_cases h1 : 1 ≤ (pos:ℤ) - neg
    · rw [if_pos h1]
      exact iff_of_false (by decide) (by omega)
    · rw [if_neg h1]
      by_cases h2 : 1 ≤ (neg:ℤ) - pos
      · rw [if_pos h2]
        exact iff_of_true rfl h2
      · rw [if_neg h2]
        exact iff_of_false (by decide) h2
  · by_cases h1 : 1 ≤ (pos:ℤ) - neg
    · rw [if_pos h1]
      exact iff_of_false (by decide) (by omega)
    · rw [if_neg h1]
      by_cases h2 : 1 ≤ (neg:ℤ) - pos
      · rw [if_pos h2]
        exact iff_of_false (by decide) (by omega)
      · rw [if_neg h2]
        exact iff_of_true rfl (by omega)

theorem clip9_lb (x : ℝ) : (1/10^9 : ℝ) ≤ Smooth.clip9 x :=
  le_min (le_max_right x _) (by norm_num)

theorem clip9_pos (x : ℝ) : 0 < Smooth.clip9 x :=
  lt_of_lt_of_le (by norm_num) (clip9_lb x)

theorem sum_map_div (l : List ℝ) (s : ℝ) :
    (l.map (fun x => x / s)).sum = l.sum / s := by
  induction l with
  | nil => simp
  | cons a t ih => simp [ih, add_div]

theorem sum_map_affine (l : List ℝ) (a c : ℝ) :
    (l.map (fun x => x * a + (c - x))).sum
      = l.sum * a + ((l.length : ℝ) * c - l.sum) := by
  induction l with
  | nil => simp
  | cons x t ih =>
    simp only [List.map_cons, List.sum_cons, ih, List.length_cons]
    push_cast
    ring

theorem sum_map_negf (l : List ℝ) (f : ℝ → ℝ) :
    (l.map (fun x => -(f x))).sum = -((l.map f).sum) := by
  induction l with
  | nil => simp
  | cons x t ih => simp [ih]; ring

theorem entropy_le_log_length (l : List ℝ) (hpos : ∀ x ∈ l, 0 < x)
    (hsum : l.sum = 1) : Smooth.entropy l ≤ Real.log l.length := by
  have hne : l ≠ [] := by
    rintro rfl
    simp at hsum
  have hn1 : 1 ≤ l.length := List.length_pos.mpr hne
  have hnR : (0:ℝ) < (l.length : ℝ) := by exact_mod_cast hn1
  have key : ∀ x ∈ l, -(x * Real.log x) ≤
      x * Real.log l.length + (1 / (l.length : ℝ) - x) := by
    intro x hx
    have hx0 := hpos x hx
    have h1 : Real.log (1 / ((l.length : ℝ) * x)) ≤ 1 / ((l.length : ℝ) * x) - 1 :=
      Real.log_le_sub_one_of_pos (by positivity)
    have h2 : Real.log (1 / ((l.length : ℝ) * x))
        = -(Real.log (l.length : ℝ) + Real.log x) := by
      rw [one_div, Real.log_inv, Real.log_mul (ne_of_gt hnR) (ne_of_gt hx0)]
    rw [h2] at h1
    have h3 := mul_le_mul_of_nonneg_left h1 (le_of_lt hx0)
    have h4 : x * (1 / ((l.length : ℝ) * x) - 1) = 1 / (l.length : ℝ) - x := by
      field_simp
      ring
    rw [h4] at h3
    nlinarith [h3]
  have hle := List.sum_le_sum key
  rw [sum_map_negf] at hle
  rw [sum_map_affine, hsum] at hle
  have hrhs : 1 * Real.log (l.length : ℝ) + ((l.length : ℝ) * (1 / (l.length : ℝ)) - 1)
      = Real.log (l.length : ℝ) := by
    field_simp
  rw [hrhs] at hle
  rw [Smooth.entropy]
  exact hle

theorem entropy_nonneg_of_le_one (l : List ℝ) (hpos : ∀ x ∈ l, 0 < x)
    (hle1 : ∀ x ∈ l, x ≤ 1) : 0 ≤ Smooth.entropy l := by
  have key : ∀ x ∈ l, x * Real.log x ≤ (fun _ : ℝ => (0:ℝ)) x := by
    intro x hx
    exact mul_nonpos_of_nonneg_of_nonpos (le_of_lt (hpos x hx))
      (Real.log_nonpos (le_of_lt (hpos x hx)) (hle1 x hx))
  have hle := List.sum_le_sum key
  have : ((l.map (fun _ : ℝ => (0:ℝ))).sum) = 0 := by
    induction l with
    | nil => simp
    | cons x t ih => simp
  rw [this] at hle
  rw [Smooth.entropy]
  linarith

theorem stability_unit (p : List ℝ) (hlen : 2 ≤ p.length) :
    0 ≤ Smooth.stability p ∧ Smooth.stability p ≤ 1 := by
  have hqpos : ∀ x ∈ p.map Smooth.clip9, 0 < x := by
    intro x hx
    obtain ⟨y, _, rfl⟩ := List.mem_map.mp hx
    exact clip9_pos y
  have hqne : p.map Smooth.clip9 ≠ [] := by
    intro h
    rw [List.map_eq_nil_iff] at h
    subst h
    simp at hlen
  have hs : 0 < (p.map Smooth.clip9).sum := List.sum_pos _ hqpos hqne
  have hrpos : ∀ y ∈ Smooth.renorm p, 0 < y := by
    intro y hy
    rw [Smooth.renorm] at hy
    obtain ⟨x, hx, rfl⟩ := List.mem_map.mp hy
    exact div_pos (hqpos x hx) hs
  have hrle1 : ∀ y ∈ Smooth.renorm p, y ≤ 1 := by
    intro y hy
    rw [Smooth.renorm] at hy
    obtain ⟨x, hx, rfl⟩ := List.mem_map.mp hy
    exact (div_le_one hs).mpr
      (List.single_le_sum (fun a ha => le_of_lt (hqpos a ha)) x hx)
  have hrsum : (Smooth.renorm p).sum = 1 := by
    rw [Smooth.renorm, sum_map_div]
    exact div_self (ne_of_gt hs)
  have hrlen : (Smooth.renorm p).length = p.length := by
    simp [Smooth.renorm]
  have h1R : (1:ℝ) < (p.length : ℝ) := by
    have h2 : (2:ℝ) ≤ (p.length : ℝ) := by exact_mod_cast hlen
    linarith
  have hHm : 0 < Real.log (p.length : ℝ) := Real.log_pos h1R
  have hH0 : 0 ≤ Smooth.entropy (Smooth.renorm p) :=
    entropy_nonneg_of_le_one _ hrpos hrle1
  have hHle : Smooth.entropy (Smooth.renorm p) ≤ Real.log (p.length : ℝ) := by
    have h3 := entropy_le_log_length _ hrpos hrsum
    rwa [hrlen] at h3
  rw [Smooth.stability, if_pos hHm]
  constructor
  · have h4 : Smooth.entropy (Smooth.renorm p) / Real.log (p.length : ℝ) ≤ 1 :=
      (div_le_one hHm).mpr hHle
    linarith
  · have h4 : 0 ≤ Smooth.entropy (Smooth.renorm p) / Real.log (p.length : ℝ) :=
      div_nonneg hH0 (le_of_lt hHm)
    linarith

theorem stability_uniform (k : ℕ) (hk : 2 ≤ k) :
    Smooth.stability (List.replicate k ((k:ℝ)⁻¹)) = 0 := by
  have hkR : (1:ℝ) < (k:ℝ) := by
    have h2 : (2:ℝ) ≤ (k:ℝ) := by exact_mod_cast hk
    linarith
  have hk0 : (k:ℝ) ≠ 0 := by linarith
  have hcpos : 0 < Smooth.clip9 ((k:ℝ)⁻¹) := clip9_pos _
  have hmap : (List.replicate k ((k:ℝ)⁻¹)).map Smooth.clip9
      = List.replicate k (Smooth.clip9 ((k:ℝ)⁻¹)) := List.map_replicate ..
  have hsum : (List.replicate k (Smooth.clip9 ((k:ℝ)⁻¹))).sum
      = (k:ℝ) * Smooth.clip9 ((k:ℝ)⁻¹) := by
    rw [List.sum_replicate, nsmul_eq_mul]
  have hcc : Smooth.clip9 ((k:ℝ)⁻¹) / ((k:ℝ) * Smooth.clip9 ((k:ℝ)⁻¹)) = (k:ℝ)⁻¹ := by
    rw [mul_comm, div_mul_eq_div_div, div_self (ne_of_gt hcpos), one_div]
  have hrenorm : Smooth.renorm (List.replicate k ((k:ℝ)⁻¹))
      = List.replicate k ((k:ℝ)⁻¹) := by
    rw [Smooth.renorm, hmap, hsum, List.map_replicate, hcc]
  have hent : Smooth.entropy (List.replicate k ((k:ℝ)⁻¹)) = Real.log (k:ℝ) := by
    rw [Smooth.entropy, List.map_replicate, List.sum_replicate, nsmul_eq_mul,
      Real.log_inv]
    field_simp
  have hlen : (List.replicate k ((k:ℝ)⁻¹)).length = k := List.length_replicate ..
  rw [Smooth.stability, hlen, if_pos (Real.log_pos hkR), hrenorm, hent,
    div_self (ne_of_gt (Real.log_pos hkR))]
  ring

theorem stability_onehot_lt_one (j m : ℕ) (hjm : 1 ≤ j + m) :
    Smooth.stability (List.replicate j (0:ℝ) ++ 1 :: List.replicate m 0) < 1 := by
  set p := List.replicate j (0:ℝ) ++ 1 :: List.replicate m 0 with hp
  have hlen : p.length = j + m + 1 := by
    simp [hp]
    omega
  have hc0 : Smooth.clip9 0 = 1/10^9 := by
    rw [Smooth.clip9, max_eq_right (by norm_num), min_eq_left (by norm_num)]
  have hc1 : Smooth.clip9 1 = 1 := by
    rw [Smooth.clip9, max_eq_left (by norm_num), min_self]
  have hq : p.map Smooth.clip9
      = List.replicate j (1/10^9 : ℝ) ++ (1:ℝ) :: List.replicate m (1/10^9) := by
    simp [hp, List.map_replicate, hc0, hc1]
  have hjmR : (1:ℝ) ≤ (j:ℝ) + (m:ℝ) := by exact_mod_cast hjm
  set E := 1 + ((j:ℝ) + (m:ℝ)) * (1/10^9) with hE
  have hs : (p.map Smooth.clip9).sum = E := by
    rw [hq, hE]
    simp [List.sum_append, List.sum_replicate, nsmul_eq_mul]
    ring
  have hE1 : 1 < E := by
    rw [hE]
    nlinarith
  have hE0 : (0:ℝ) < E := lt_trans one_pos hE1
  have hs2 : (List.replicate j ((1:ℝ)/10^9) ++ (1:ℝ) :: List.replicate m ((1:ℝ)/10^9)).sum
      = E := by
    rw [← hq]
    exact hs
  have hr : Smooth.renorm p
      = List.replicate j ((1/10^9 : ℝ) / E)
        ++ ((1:ℝ) / E) :: List.replicate m ((1/10^9 : ℝ) / E) := by
    rw [Smooth.renorm]
    simp only [hq, hs2, List.map_append, List.map_cons, List.map_replicate]
  have hb : ((1:ℝ) / E) * Real.log ((1:ℝ) / E) < 0 := by
    have hbpos : (0:ℝ) < 1 / E := by positivity
    have hblt : (1:ℝ) / E < 1 := by
      rw [div_lt_one hE0]
      exact hE1
    exact mul_neg_of_pos_of_neg hbpos (Real.log_neg hbpos hblt)
  have ha : ((1/10^9 : ℝ) / E) * Real.log ((1/10^9 : ℝ) / E) ≤ 0 := by
    have hapos : (0:ℝ) < (1/10^9 : ℝ) / E := by positivity
    have halt : (1/10^9 : ℝ) / E < 1 := by
      rw [div_lt_one hE0]
      linarith
    exact le_of_lt (mul_neg_of_pos_of_neg hapos (Real.log_neg hapos halt))
  have hsum_neg : ((Smooth.renorm p).map (fun x => x * Real.log x)).sum < 0 := by
    rw [hr]
    simp only [List.map_append, List.map_cons, List.map_replicate, List.sum_append,
      List.sum_cons, List.sum_replicate, nsmul_eq_mul]
    have hja : (j:ℝ) * (((1/10^9 : ℝ) / E) * Real.log ((1/10^9 : ℝ) / E)) ≤ 0 :=
      mul_nonpos_of_nonneg_of_nonpos (by positivity) ha
    have hma : (m:ℝ) * (((1/10^9 : ℝ) / E) * Real.log ((1/10^9 : ℝ) / E)) ≤ 0 :=
      mul_nonpos_of_nonneg_of_nonpos (by positivity) ha
    linarith
  have hH : 0 < Smooth.entropy (Smooth.renorm p) := by
    rw [Smooth.entropy]
    linarith
  have hHm : 0 < Real.log (p.length : ℝ) := by
    rw [hlen]
    apply Real.log_pos
    push_cast
    linarith
  rw [Smooth.stability, if_pos hHm]
  have hdiv : 0 < Smooth.entropy (Smooth.renorm p) / Real.log (p.length : ℝ) :=
    div_pos hH hHm
  linarith

/-- C6 (counterexample): the claim says the stability score equals 1 when
the probability vector is one-hot.  The clamp `clip(1e-9, 1.0)` of
src/roles/smooth.py line 7 lifts the zero entries of a one-hot vector to
1e-9, so the renormalized vector has strictly positive entropy, and for
the one-hot vector `[1, 0]` the stability is strictly below 1 — not
equal to 1. -/
theorem C6_counterexample_onehot_not_one :
    Smooth.stability [(1:ℝ), 0] < 1 ∧ Smooth.stability [(1:ℝ), 0] ≠ 1 := by
  have h := stability_onehot_lt_one 0 1 (by norm_num)
  have heq : (List.replicate 0 (0:ℝ) ++ 1 :: List.replicate 1 0) = [(1:ℝ), 0] := rfl
  rw [heq] at h
  exact ⟨h, ne_of_lt h⟩

/-- C6 (amended): for every vector of length k ≥ 2 the stability score
`1 - H(p)/ln k` (with p clamped to [1e-9, 1] and renormalized) lies in
[0, 1]; it equals 0 exactly when p is uniform; and for a one-hot vector
it is strictly less than 1 (approaching 1, but the 1e-9 clamp injects a
small positive entropy), rather than exactly 1. -/
theorem C6_stability_bounds_uniform_onehot :
    (∀ p : List ℝ, 2 ≤ p.length → 0 ≤ Smooth.stability p ∧ Smooth.stability p ≤ 1) ∧
    (∀ k : ℕ, 2 ≤ k → Smooth.stability (List.replicate k ((k:ℝ)⁻¹)) = 0) ∧
    (∀ j m : ℕ, 1 ≤ j + m →
      Smooth.stability (List.replicate j (0:ℝ) ++ 1 :: List.replicate m 0) < 1) :=
  ⟨stability_unit, stability_uniform, stability_onehot_lt_one⟩

/-- Witness for C6 at concrete vectors of length 2. -/
theorem C6_stability_bounds_uniform_onehot_witness :
    (0 ≤ Smooth.stability [(1:ℝ)/2, 1/2] ∧ Smooth.stability [(1:ℝ)/2, 1/2] ≤ 1) ∧
    Smooth.stability (List.replicate 2 ((2:ℝ)⁻¹)) = 0 ∧
    Smooth.stability (List.replicate 1 (0:ℝ) ++ 1 :: List.replicate 0 0) < 1 :=
  ⟨C6_stability_bounds_uniform_onehot.1 [(1:ℝ)/2, 1/2] (by norm_num),
   C6_stability_bounds_uniform_onehot.2.1 2 (by norm_num),
   C6_stability_bounds_uniform_onehot.2.2 1 0 (by norm_num)⟩
